import Mathlib

/-!
Shallow embedding of `pylearn2/termination_criteria/__init__.py`.

The module defines a family of termination criteria, each exposing
`continue_learning(model) -> bool` (`True` = keep training), plus `And`/`Or`
combinators over lists of criteria.  Channel values are Python floats; we
model them exactly as IEEE-style extended rationals (`nan`, `-inf`, finite
rational, `+inf`).  Fallible operations (dictionary lookups, `getattr`,
`list[-1]` on an empty list) are modelled with `Option`: `none` corresponds
to a raised Python exception.  Mutable per-criterion state is carried in the
constructor arguments of the `Crit` type, and `continue_learning` returns the
updated criterion alongside the boolean.
-/

namespace Pylearn2

/-- Exact model of the Python float values flowing through the module:
`nan`, `-inf`, a finite value (an exact rational), or `+inf`. -/
inductive PyFloat where
  | nan
  | negInf
  | fin (q : ℚ)
  | posInf
deriving DecidableEq

/-- IEEE `<` on our float model: any comparison involving `nan` is `false`;
`-inf` is below every non-`nan` value and `+inf` above every non-`nan`
value; finite values compare as rationals. -/
def PyFloat.lt : PyFloat → PyFloat → Bool
  | .nan, _ => false
  | _, .nan => false
  | .negInf, .negInf => false
  | .negInf, _ => true
  | .fin _, .negInf => false
  | .fin a, .fin b => decide (a < b)
  | .fin _, .posInf => true
  | .posInf, _ => false

/-- IEEE `>`: `a > b` iff `b < a`. -/
def PyFloat.gt (a b : PyFloat) : Bool := PyFloat.lt b a

/-- `numpy.isinf`: true exactly on `+inf` and `-inf` (false on `nan` and on
finite values). -/
def PyFloat.isinf : PyFloat → Bool
  | .negInf => true
  | .posInf => true
  | _ => false

/-- Multiplication of a float by a finite rational scalar `c`, as used in
`(1. - self.prop_decrease) * self.best_value`: IEEE rules, including
`0 * (±inf) = nan`. -/
def PyFloat.smul (c : ℚ) : PyFloat → PyFloat
  | .nan => .nan
  | .fin q => .fin (c * q)
  | .posInf => if 0 < c then .posInf else if c < 0 then .negInf else .nan
  | .negInf => if 0 < c then .negInf else if c < 0 then .posInf else .nan

/-- A monitor channel: its ordered `val_record` of per-epoch values. -/
structure Channel where
  val_record : List PyFloat
deriving DecidableEq

/-- A monitor: a mapping from channel names to channels (Python dict,
modelled as an association list; a missing key is a `KeyError`). -/
structure Monitor where
  channels : List (String × Channel)
deriving DecidableEq

/-- The model object as seen by this module: its `monitor`, plus its other
attributes that hold monitors from previous runs (`getattr(model, name)`
as used by `MatchChannel`; a missing name is an `AttributeError`). -/
structure Model where
  monitor : Monitor
  attrs : List (String × Monitor)
deriving DecidableEq

/-- The six termination-criterion classes.  Constructor arguments hold both
the immutable configuration and the mutable state of an instance. -/
inductive Crit where
  | MonitorBased (channel_name : Option String) (prop_decrease : ℚ) (N : ℤ)
      (countdown : ℤ) (best_value : PyFloat)
  | MatchChannel (channel_name prev_channel_name prev_monitor_name : String)
      (target : Option PyFloat)
  | ChannelTarget (channel_name : String) (target : PyFloat)
  | ChannelInf (channel_name : String)
  | EpochCounter (max_epochs : ℤ) (epochs_done : ℤ)
  | And (criteria : List Crit)
  | Or (criteria : List Crit)

/-- `MonitorBased.continue_learning`'s channel read: with no configured
channel name it reads `monitor.channels['objective']`, otherwise the
configured channel; returns the channel's `val_record`. -/
def mb_val_record (channel_name : Option String) (model : Model) :
    Option (List PyFloat) :=
  match channel_name with
  | none => (List.lookup "objective" model.monitor.channels).map Channel.val_record
  | some name => (List.lookup name model.monitor.channels).map Channel.val_record

/-- The state update and result of one `MonitorBased.continue_learning` call,
given the latest channel value `v_last`: reset the countdown to `N` on a
sufficient proportional improvement, else decrement it; then update the best
value; return `countdown > 0`.  Result: `(returned bool, countdown', best')`. -/
def monitor_based_step (prop_decrease : ℚ) (N countdown : ℤ)
    (best_value v_last : PyFloat) : Bool × ℤ × PyFloat :=
  let countdown1 :=
    if PyFloat.lt v_last (PyFloat.smul (1 - prop_decrease) best_value) then N
    else countdown - 1
  let best1 := if PyFloat.lt v_last best_value then v_last else best_value
  (decide (0 < countdown1), countdown1, best1)

mutual

/-- `continue_learning`, per class.  Returns `none` when the Python code
would raise (missing channel, missing attribute, empty `val_record`);
otherwise `some (returned boolean, criterion with its state updated)`. -/
def continue_learning : Crit → Model → Option (Bool × Crit)
  | .MonitorBased channel_name prop_decrease N countdown best_value, model => do
      let v ← mb_val_record channel_name model
      let v_last ← v.getLast?
      let r := monitor_based_step prop_decrease N countdown best_value v_last
      pure (r.1, .MonitorBased channel_name prop_decrease N r.2.1 r.2.2)
  | .MatchChannel channel_name prev_channel_name prev_monitor_name target,
      model => do
      let t ← match target with
        | some t => some t
        | none => do
            let prev_monitor ← List.lookup prev_monitor_name model.attrs
            let prev_channel ←
              List.lookup prev_channel_name prev_monitor.channels
            prev_channel.val_record.getLast?
      let channel ← List.lookup channel_name model.monitor.channels
      let current ← channel.val_record.getLast?
      pure (PyFloat.gt current t,
        .MatchChannel channel_name prev_channel_name prev_monitor_name (some t))
  | .ChannelTarget channel_name target, model => do
      let channel ← List.lookup channel_name model.monitor.channels
      let v_last ← channel.val_record.getLast?
      pure (PyFloat.gt v_last target, .ChannelTarget channel_name target)
  | .ChannelInf channel_name, model => do
      let channel ← List.lookup channel_name model.monitor.channels
      let v_last ← channel.val_record.getLast?
      pure (PyFloat.isinf v_last, .ChannelInf channel_name)
  | .EpochCounter max_epochs epochs_done, _model =>
      pure (decide (epochs_done + 1 < max_epochs),
        .EpochCounter max_epochs (epochs_done + 1))
  | .And criteria, model =>
      (runAll criteria model).map (fun r => (r.1, .And r.2))
  | .Or criteria, model =>
      (runAny criteria model).map (fun r => (r.1, .Or r.2))

/-- `all(criterion.continue_learning(model) for criterion in self._criteria)`:
Python's `all` over a generator consumes it lazily and stops at the first
`False`, so criteria after that one are not invoked (their state is kept
unchanged in the returned list). -/
def runAll : List Crit → Model → Option (Bool × List Crit)
  | [], _ => some (true, [])
  | c :: cs, model => do
      let r ← continue_learning c model
      if r.1 then
        let rs ← runAll cs model
        pure (rs.1, r.2 :: rs.2)
      else
        pure (false, r.2 :: cs)

/-- `any(criterion.continue_learning(model) for criterion in self._criteria)`:
stops at the first `True`; criteria after it are not invoked. -/
def runAny : List Crit → Model → Option (Bool × List Crit)
  | [], _ => some (false, [])
  | c :: cs, model => do
      let r ← continue_learning c model
      if r.1 then
        pure (true, r.2 :: cs)
      else
        let rs ← runAny cs model
        pure (rs.1, r.2 :: rs.2)

end

/-- The training loop's view: one `continue_learning` call per epoch, with
the model as observed at that epoch (its channels have grown by one value);
the criterion's state threads through.  An exception aborts the run. -/
def runCalls : Crit → List Model → Option (List Bool × Crit)
  | c, [] => some ([], c)
  | c, m :: ms => do
      let r ← continue_learning c m
      let rs ← runCalls r.2 ms
      pure (r.1 :: rs.1, rs.2)

/-- `a < a` is `false` on every float, `nan` included. -/
theorem PyFloat.lt_self (a : PyFloat) : PyFloat.lt a a = false := by
  cases a <;> simp [PyFloat.lt]

/-- A model with a single channel `"c"` whose record holds the one value
`v`; used to evaluate `ChannelInf` at concrete inputs. -/
def channel_inf_model (v : PyFloat) : Model :=
  { monitor := ⟨[("c", ⟨[v]⟩)]⟩, attrs := [] }

/-- C2: what the code actually does.  `ChannelInf.continue_learning` returns
`np.isinf(val_record[-1])`, so on a latest value of `+inf` or `-inf` it
returns `true` (continue training), and on a finite latest value it returns
`false` (stop) — the exact opposite of the claimed (and documented)
behaviour of halting on numerical blow-up. -/
theorem channel_inf_code_eval :
    continue_learning (.ChannelInf "c") (channel_inf_model .posInf)
      = some (true, .ChannelInf "c")
    ∧ continue_learning (.ChannelInf "c") (channel_inf_model .negInf)
      = some (true, .ChannelInf "c")
    ∧ continue_learning (.ChannelInf "c") (channel_inf_model (.fin 1))
      = some (false, .ChannelInf "c") := ⟨rfl, rfl, rfl⟩

/-- A monitor with two channels, one of them named `"objective"`; the
configuration the C3 claim says must fail fast. -/
def mb_two_channel_model : Model :=
  { monitor := ⟨[("objective", ⟨[.fin 1]⟩), ("other", ⟨[.fin 2]⟩)]⟩,
    attrs := [] }

unseal Rat.sub in
/-- C3: what the code actually does.  A `MonitorBased` criterion constructed
without a channel name, evaluated on a monitor exposing two channels (one of
them `"objective"`), does not fail: it silently reads the `"objective"`
channel and returns a boolean. -/
theorem monitor_based_no_name_code_eval :
    continue_learning (.MonitorBased none (mkRat 1 100) 5 5 .posInf)
        mb_two_channel_model
      = some (true, .MonitorBased none (mkRat 1 100) 5 5 (.fin 1)) := rfl

/-- C7: `ChannelTarget.continue_learning` on a model whose configured
channel resolves to `chan` with latest recorded value `v` returns
`v > target` and leaves the criterion unchanged (no state is mutated);
on finite values `>` is the strict rational order, and a latest value
equal to the target yields `false`. -/
theorem channel_target_continue_learning (name : String) (target : PyFloat)
    (model : Model) (chan : Channel) (v : PyFloat)
    (h1 : List.lookup name model.monitor.channels = some chan)
    (h2 : chan.val_record.getLast? = some v) :
    continue_learning (.ChannelTarget name target) model
      = some (PyFloat.gt v target, .ChannelTarget name target)
    ∧ (∀ a b : ℚ, PyFloat.gt (.fin a) (.fin b) = true ↔ b < a)
    ∧ (v = target → PyFloat.gt v target = false) := by
  refine ⟨?_, ?_, ?_⟩
  · simp [continue_learning, h1, h2]
  · intro a b
    simp [PyFloat.gt, PyFloat.lt]
  · rintro rfl
    exact PyFloat.lt_self _

/-- A model giving the channel `"c"` the single recorded value `0.6`. -/
def channel_target_model : Model :=
  { monitor := ⟨[("c", ⟨[.fin (mkRat 6 10)]⟩)]⟩, attrs := [] }

/-- Witness for C7 at a concrete input: channel value `0.6`, target `0.5`. -/
theorem channel_target_witness :
    continue_learning (.ChannelTarget "c" (.fin (mkRat 5 10)))
        channel_target_model
      = some (PyFloat.gt (.fin (mkRat 6 10)) (.fin (mkRat 5 10)),
          .ChannelTarget "c" (.fin (mkRat 5 10))) :=
  (channel_target_continue_learning "c" (.fin (mkRat 5 10))
    channel_target_model ⟨[.fin (mkRat 6 10)]⟩ (.fin (mkRat 6 10)) rfl rfl).1

/-- A model with no channels and no extra attributes; `EpochCounter` and the
combinators never read it. -/
def empty_model : Model := { monitor := ⟨[]⟩, attrs := [] }

/-- C1 (counterexample): the combinators short-circuit.  `And` over
`[EpochCounter 1, EpochCounter 5]` (both fresh): the first child returns
`false`, and the second child is never invoked — its `epochs_done` stays `0`
in the result, whereas an actual invocation advances it to `1` (a distinct
state).  Dually, `Or` over `[EpochCounter 5, EpochCounter 1]` stops at the
first child's `true` and leaves the second child's state untouched. -/
theorem and_or_short_circuit_cex :
    continue_learning (.And [.EpochCounter 1 0, .EpochCounter 5 0]) empty_model
      = some (false, .And [.EpochCounter 1 1, .EpochCounter 5 0])
    ∧ continue_learning (.EpochCounter 5 0) empty_model
      = some (true, .EpochCounter 5 1)
    ∧ Crit.EpochCounter 5 0 ≠ Crit.EpochCounter 5 1
    ∧ continue_learning (.Or [.EpochCounter 5 0, .EpochCounter 1 0]) empty_model
      = some (true, .Or [.EpochCounter 5 1, .EpochCounter 1 0])
    ∧ continue_learning (.EpochCounter 1 0) empty_model
      = some (false, .EpochCounter 1 1)
    ∧ Crit.EpochCounter 1 0 ≠ Crit.EpochCounter 1 1 := by
  refine ⟨rfl, rfl, ?_, rfl, rfl, ?_⟩ <;> (intro h; simp at h)

/-- Unfolding `runAll` on a nonempty list, in `Option.bind` form. -/
theorem runAll_cons (c : Crit) (cs : List Crit) (model : Model) :
    runAll (c :: cs) model
      = (continue_learning c model).bind (fun r =>
          if r.1 then
            (runAll cs model).bind (fun rs => some (rs.1, r.2 :: rs.2))
          else some (false, r.2 :: cs)) := by
  simp [runAll]

/-- Unfolding `runAny` on a nonempty list, in `Option.bind` form. -/
theorem runAny_cons (c : Crit) (cs : List Crit) (model : Model) :
    runAny (c :: cs) model
      = (continue_learning c model).bind (fun r =>
          if r.1 then some (true, r.2 :: cs)
          else (runAny cs model).bind (fun rs => some (rs.1, r.2 :: rs.2))) := by
  simp [runAny]

/-- `all` over the children returns `true` exactly when every child's
individual call returns `true`. -/
theorem runAll_true_iff (model : Model) :
    ∀ (cs : List Crit) (b : Bool) (cs2 : List Crit),
      runAll cs model = some (b, cs2) →
      (b = true ↔
        ∀ c ∈ cs, ∃ c2, continue_learning c model = some (true, c2)) := by
  intro cs
  induction cs with
  | nil =>
      intro b cs2 h
      simp [runAll] at h
      simp [h.1.symm]
  | cons c cs ih =>
      intro b cs2 h
      rw [runAll_cons] at h
      cases hc : continue_learning c model with
      | none => rw [hc] at h; simp at h
      | some r =>
          rw [hc] at h
          simp only [Option.some_bind] at h
          by_cases hr : r.1 = true
          · rw [if_pos hr] at h
            cases hs : runAll cs model with
            | none => rw [hs] at h; simp at h
            | some rs =>
                rw [hs] at h
                simp only [Option.some_bind, Option.some.injEq,
                  Prod.mk.injEq] at h
                obtain ⟨hb, -⟩ := h
                subst hb
                rw [ih rs.1 rs.2 (by rw [hs])]
                constructor
                · intro hall
                  intro x hx
                  rcases List.mem_cons.mp hx with rfl | hx
                  · exact ⟨r.2, by rw [hc, ← hr]⟩
                  · exact hall x hx
                · intro hall x hx
                  exact hall x (List.mem_cons_of_mem c hx)
          · rw [if_neg hr] at h
            simp only [Option.some.injEq, Prod.mk.injEq] at h
            obtain ⟨hb, -⟩ := h
            subst hb
            refine iff_of_false (by simp) (fun hall => ?_)
            rcases hall c (List.mem_cons_self c cs) with ⟨c2, hc2⟩
            rw [hc] at hc2
            have hrc : r = (true, c2) := Option.some.inj hc2
            exact hr (by rw [hrc])

/-- `any` over the children returns `true` exactly when some child's
individual call returns `true`. -/
theorem runAny_true_iff (model : Model) :
    ∀ (cs : List Crit) (b : Bool) (cs2 : List Crit),
      runAny cs model = some (b, cs2) →
      (b = true ↔
        ∃ c ∈ cs, ∃ c2, continue_learning c model = some (true, c2)) := by
  intro cs
  induction cs with
  | nil =>
      intro b cs2 h
      simp [runAny] at h
      simp [h.1.symm]
  | cons c cs ih =>
      intro b cs2 h
      rw [runAny_cons] at h
      cases hc : continue_learning c model with
      | none => rw [hc] at h; simp at h
      | some r =>
          rw [hc] at h
          simp only [Option.some_bind] at h
          by_cases hr : r.1 = true
          · rw [if_pos hr] at h
            simp only [Option.some.injEq, Prod.mk.injEq] at h
            obtain ⟨hb, -⟩ := h
            subst hb
            exact iff_of_true rfl
              ⟨c, List.mem_cons_self c cs, r.2, by rw [hc, ← hr]⟩
          · rw [if_neg hr] at h
            cases hs : runAny cs model with
            | none => rw [hs] at h; simp at h
            | some rs =>
                rw [hs] at h
                simp only [Option.some_bind, Option.some.injEq,
                  Prod.mk.injEq] at h
                obtain ⟨hb, -⟩ := h
                subst hb
                rw [ih rs.1 rs.2 (by rw [hs])]
                constructor
                · rintro ⟨x, hx, c2, hc2⟩
                  exact ⟨x, List.mem_cons_of_mem c hx, c2, hc2⟩
                · rintro ⟨x, hx, c2, hc2⟩
                  rcases List.mem_cons.mp hx with rfl | hx
                  · rw [hc] at hc2
                    have hrc : r = (true, c2) := Option.some.inj hc2
                    exact absurd (by rw [hrc]) hr
                  · exact ⟨x, hx, c2, hc2⟩

/-- C1 (amended): the combinators evaluate their children in order with
Python's short-circuiting `all`/`any` over a generator.  A head child
returning `false` makes `And` return `false` with every later child left
un-invoked (state unchanged); a head child returning `true` does the same
for `Or` with result `true`.  The boolean outcome is still the conjunction
(resp. disjunction): `And` returns `true` iff every child's call returns
`true`, `Or` returns `true` iff some child's call returns `true`. -/
theorem and_or_amended (model : Model) :
    (∀ (c : Crit) (cs : List Crit) (c2 : Crit),
        continue_learning c model = some (false, c2) →
        continue_learning (.And (c :: cs)) model
          = some (false, .And (c2 :: cs)))
    ∧ (∀ (c : Crit) (cs : List Crit) (c2 : Crit),
        continue_learning c model = some (true, c2) →
        continue_learning (.Or (c :: cs)) model
          = some (true, .Or (c2 :: cs)))
    ∧ (∀ (cs : List Crit) (b : Bool) (r : Crit),
        continue_learning (.And cs) model = some (b, r) →
        (b = true ↔
          ∀ c ∈ cs, ∃ c2, continue_learning c model = some (true, c2)))
    ∧ (∀ (cs : List Crit) (b : Bool) (r : Crit),
        continue_learning (.Or cs) model = some (b, r) →
        (b = true ↔
          ∃ c ∈ cs, ∃ c2, continue_learning c model = some (true, c2))) := by
  refine ⟨?_, ?_, ?_, ?_⟩
  · intro c cs c2 hc
    show (runAll (c :: cs) model).map (fun r => (r.1, Crit.And r.2))
      = some (false, .And (c2 :: cs))
    rw [runAll_cons, hc]
    simp
  · intro c cs c2 hc
    show (runAny (c :: cs) model).map (fun r => (r.1, Crit.Or r.2))
      = some (true, .Or (c2 :: cs))
    rw [runAny_cons, hc]
    simp
  · intro cs b r h
    replace h : (runAll cs model).map (fun r => (r.1, Crit.And r.2))
        = some (b, r) := h
    rcases Option.map_eq_some'.mp h with ⟨rs, hrs, hr⟩
    cases hr
    exact runAll_true_iff model cs rs.1 rs.2 (by rw [hrs])
  · intro cs b r h
    replace h : (runAny cs model).map (fun r => (r.1, Crit.Or r.2))
        = some (b, r) := h
    rcases Option.map_eq_some'.mp h with ⟨rs, hrs, hr⟩
    cases hr
    exact runAny_true_iff model cs rs.1 rs.2 (by rw [hrs])

/-- Witness for the amended C1 at a concrete input: an exhausted
`EpochCounter` at the head of an `And` short-circuits past a fresh second
child. -/
theorem and_or_amended_witness :
    continue_learning (.And [.EpochCounter 1 1, .EpochCounter 7 0])
        empty_model
      = some (false, .And [.EpochCounter 1 2, .EpochCounter 7 0]) :=
  (and_or_amended empty_model).1 (.EpochCounter 1 1) [.EpochCounter 7 0]
    (.EpochCounter 1 2) rfl

/-- The booleans returned by successive `MonitorBased` calls, one call per
element of `vs`, where the `k`-th element is the channel's latest recorded
value at the `k`-th call; the countdown and best value thread through. -/
def monitor_based_run (prop_decrease : ℚ) (N : ℤ) :
    ℤ → PyFloat → List PyFloat → List Bool
  | _, _, [] => []
  | countdown, best_value, v :: vs =>
      let r := monitor_based_step prop_decrease N countdown best_value v
      r.1 :: monitor_based_run prop_decrease N r.2.1 r.2.2 vs

/-- `true` when each value in `vs` is a sufficient proportional improvement
at its call: below `(1 - prop_decrease)` times the best value current at
that point (the best value updating exactly as the code updates it). -/
def suff_decrease_run (prop_decrease : ℚ) : PyFloat → List PyFloat → Bool
  | _, [] => true
  | best_value, v :: vs =>
      PyFloat.lt v (PyFloat.smul (1 - prop_decrease) best_value)
      && suff_decrease_run prop_decrease
           (if PyFloat.lt v best_value then v else best_value) vs

/-- The strictly decreasing value sequence refuting C4:
`1, 0.999, 0.998, 0.997, 0.996, 0.995` — each step improves, but never by
the required 1 percent. -/
def c4_vals : List ℚ :=
  [1, mkRat 999 1000, mkRat 998 1000, mkRat 997 1000, mkRat 996 1000,
    mkRat 995 1000]

/-- The six per-epoch snapshots of a model feeding `c4_vals` into channel
`"c"` one value per call. -/
def c4_models : List Model :=
  (List.range 6).map (fun k =>
    { monitor := ⟨[("c", ⟨(c4_vals.take (k + 1)).map PyFloat.fin⟩)]⟩,
      attrs := [] })

unseal Rat.sub Rat.mul in
/-- C4 (counterexample): with `N = 5`, `prop_decrease = 0.01`, feeding the
strictly decreasing sequence `1, 0.999, …, 0.995` (one new latest value per
call, starting from the freshly constructed state) exhausts the countdown:
the sixth call returns `false`, refuting the claim that any strictly
decreasing sequence keeps `continue_learning` true forever. -/
theorem monitor_based_strict_decrease_cex :
    List.Chain' (fun a b : ℚ => b < a) c4_vals
    ∧ (runCalls (.MonitorBased (some "c") (mkRat 1 100) 5 5 .posInf)
          c4_models).map (fun r => r.1)
      = some [true, true, true, true, true, false] := by
  refine ⟨?_, rfl⟩
  simp only [c4_vals, List.chain'_cons, List.chain'_singleton, and_true]
  decide

/-- C4 (amended): with `N = 5`, `prop_decrease = 0.01`, feeding any sequence
of values each of which is a sufficient proportional improvement — below
`(1 - prop_decrease)` times the then-current best value — makes every call
return `true` (the countdown is reset to `5` on each call, from any starting
countdown and best value). -/
theorem monitor_based_suff_decrease (countdown : ℤ) (best_value : PyFloat)
    (vs : List PyFloat)
    (h : suff_decrease_run (mkRat 1 100) best_value vs = true) :
    monitor_based_run (mkRat 1 100) 5 countdown best_value vs
      = List.replicate vs.length true := by
  induction vs generalizing countdown best_value with
  | nil => simp [monitor_based_run]
  | cons v vs ih =>
      rw [suff_decrease_run] at h
      rcases Bool.and_eq_true_iff.mp h with ⟨h1, h2⟩
      rw [monitor_based_run, List.length_cons, List.replicate_succ]
      simp only [monitor_based_step, h1, if_true]
      exact congrArg (List.cons true) (ih 5 _ h2)

unseal Rat.sub in
/-- Witness for the amended C4: a single call on the fresh state with value
`0.5` (any finite value beats the initial `best_value = +inf`). -/
theorem monitor_based_suff_decrease_witness :
    monitor_based_run (mkRat 1 100) 5 5 .posInf [.fin (mkRat 1 2)]
      = List.replicate 1 true :=
  monitor_based_suff_decrease 5 .posInf [.fin (mkRat 1 2)] rfl

/-- Modelled from the claim text (the specified per-call rule), for
comparison with the embedded `monitor_based_step`: if
`v_last < (1 - propDecrease) * bestValue` then `countdown := N` else
`countdown := countdown - 1`; then if `v_last < bestValue` then
`bestValue := v_last`; then return `countdown > 0`. -/
def monitor_based_spec_step (propDecrease : ℚ) (N countdown : ℤ)
    (bestValue v_last : PyFloat) : Bool × ℤ × PyFloat :=
  let countdown2 :=
    if PyFloat.lt v_last (PyFloat.smul (1 - propDecrease) bestValue) then N
    else countdown - 1
  let bestValue2 := if PyFloat.lt v_last bestValue then v_last else bestValue
  (decide (0 < countdown2), countdown2, bestValue2)

/-- The six per-epoch snapshots of a model feeding the constant sequence
`1.0, 1.0, 1.0, 1.0, 1.0, 1.0` into channel `"c"`. -/
def c5_models : List Model :=
  (List.range 6).map (fun k =>
    { monitor := ⟨[("c", ⟨List.replicate (k + 1) (.fin 1)⟩)]⟩,
      attrs := [] })

unseal Rat.sub Rat.mul in
/-- C5: each `MonitorBased.continue_learning` call performs exactly the
specified update: the embedded step *is* the specified step, and a call on
any model whose configured channel has latest recorded value `v_last`
returns the specified boolean with the specified successor state.  In
particular, with `N = 5`, `prop_decrease = 0.01`, the constant sequence of
six `1.0` values yields `true` on calls 1–5 and `false` on call 6. -/
theorem monitor_based_step_spec :
    (∀ (propDecrease : ℚ) (N countdown : ℤ) (bestValue v_last : PyFloat),
        monitor_based_step propDecrease N countdown bestValue v_last
          = monitor_based_spec_step propDecrease N countdown bestValue v_last)
    ∧ (∀ (channel_name : Option String) (propDecrease : ℚ)
        (N countdown : ℤ) (bestValue : PyFloat) (model : Model)
        (vr : List PyFloat) (v_last : PyFloat),
        mb_val_record channel_name model = some vr →
        vr.getLast? = some v_last →
        continue_learning
            (.MonitorBased channel_name propDecrease N countdown bestValue)
            model
          = some
              ((monitor_based_spec_step propDecrease N countdown bestValue
                  v_last).1,
                .MonitorBased channel_name propDecrease N
                  (monitor_based_spec_step propDecrease N countdown bestValue
                    v_last).2.1
                  (monitor_based_spec_step propDecrease N countdown bestValue
                    v_last).2.2))
    ∧ (runCalls (.MonitorBased (some "c") (mkRat 1 100) 5 5 .posInf)
          c5_models).map (fun r => r.1)
      = some [true, true, true, true, true, false] := by
  refine ⟨fun _ _ _ _ _ => rfl, ?_, rfl⟩
  intro channel_name propDecrease N countdown bestValue model vr v_last h1 h2
  simp [continue_learning, h1, h2, monitor_based_step,
    monitor_based_spec_step]

/-- A single-channel model with latest `"objective"` value `1.0`, for the
C5 witness. -/
def c5_witness_model : Model :=
  { monitor := ⟨[("objective", ⟨[.fin 1]⟩)]⟩, attrs := [] }

unseal Rat.sub Rat.mul in
/-- Witness for C5 at a concrete input: one call with latest value `1.0`
from the fresh state resets the countdown and returns `true`. -/
theorem monitor_based_step_spec_witness :
    continue_learning (.MonitorBased none (mkRat 1 100) 5 5 .posInf)
        c5_witness_model
      = some
          ((monitor_based_spec_step (mkRat 1 100) 5 5 .posInf (.fin 1)).1,
            .MonitorBased none (mkRat 1 100) 5
              (monitor_based_spec_step (mkRat 1 100) 5 5 .posInf
                (.fin 1)).2.1
              (monitor_based_spec_step (mkRat 1 100) 5 5 .posInf
                (.fin 1)).2.2) :=
  monitor_based_step_spec.2.1 none (mkRat 1 100) 5 5 .posInf
    c5_witness_model [.fin 1] (.fin 1) rfl rfl

/-- Running an `EpochCounter` over any list of per-epoch models: the `k`-th
call (0-indexed) returns `epochs_done + k + 1 < max_epochs`, and the counter
ends at `epochs_done + length`. -/
theorem runCalls_epoch_counter (max_epochs : ℤ) (ms : List Model) :
    ∀ epochs_done : ℤ,
      runCalls (.EpochCounter max_epochs epochs_done) ms
        = some ((List.range ms.length).map
            (fun (k : ℕ) => decide (epochs_done + (k : ℤ) + 1 < max_epochs)),
          .EpochCounter max_epochs (epochs_done + ms.length)) := by
  induction ms with
  | nil =>
      intro ed
      simp [runCalls]
  | cons m ms ih =>
      intro ed
      simp only [runCalls, continue_learning, Option.pure_def,
        Option.bind_eq_bind, Option.some_bind]
      rw [ih (ed + 1)]
      simp only [Option.some_bind, Option.some.injEq, Prod.mk.injEq,
        List.length_cons, List.range_succ_eq_map, List.map_cons, List.map_map,
        List.cons.injEq]
      refine ⟨⟨?_, ?_⟩, ?_⟩
      · refine decide_eq_decide.mpr ?_
        omega
      · refine List.map_congr_left (fun k hk => ?_)
        simp only [Function.comp_apply]
        refine decide_eq_decide.mpr ?_
        omega
      · congr 1
        omega

/-- C6: running a fresh `EpochCounter` for any number of epochs: under
`max_epochs ≥ 1` the `k`-th call (0-indexed; call number `k + 1`) returns
`true` exactly when the call number is at most `max_epochs - 1` — so calls
`1 … max_epochs - 1` return `true` and calls from the `max_epochs`-th onward
return `false` — and under `max_epochs ≤ 0` every call (the first included)
returns `false`. -/
theorem epoch_counter_budget (max_epochs : ℤ) (ms : List Model)
    (rs : List Bool) (c : Crit) (k : ℕ)
    (h : runCalls (.EpochCounter max_epochs 0) ms = some (rs, c))
    (hk : k < rs.length) :
    (1 ≤ max_epochs →
      (rs.getD k false = true ↔ (k : ℤ) + 1 ≤ max_epochs - 1))
    ∧ (max_epochs ≤ 0 → rs.getD k false = false) := by
  rw [runCalls_epoch_counter max_epochs ms 0] at h
  have hrs : rs = (List.range ms.length).map
      (fun (j : ℕ) => decide ((0 : ℤ) + (j : ℤ) + 1 < max_epochs)) :=
    (((Prod.mk.injEq _ _ _ _).mp (Option.some.inj h)).1).symm
  subst hrs
  rw [List.length_map, List.length_range] at hk
  have hgetd : ((List.range ms.length).map
        (fun (j : ℕ) => decide ((0 : ℤ) + (j : ℤ) + 1 < max_epochs))).getD k false
      = decide ((0 : ℤ) + (k : ℤ) + 1 < max_epochs) := by
    rw [List.getD_eq_getElem?_getD, List.getElem?_map,
      List.getElem?_range hk]
    rfl
  rw [hgetd]
  constructor
  · intro hme
    rw [decide_eq_true_eq]
    omega
  · intro hme
    rw [decide_eq_false_iff_not]
    omega

/-- Witness for C6 at a concrete input: `max_epochs = 3` over three epochs;
the third call (index `k = 2`) is the `max_epochs`-th and returns `false`. -/
theorem epoch_counter_budget_witness :
    ((1 : ℤ) ≤ 3 →
      ([true, true, false].getD 2 false = true ↔ ((2 : ℕ) : ℤ) + 1 ≤ 3 - 1))
    ∧ ((3 : ℤ) ≤ 0 → [true, true, false].getD 2 false = false) :=
  epoch_counter_budget 3 [empty_model, empty_model, empty_model]
    [true, true, false] (.EpochCounter 3 3) 2 rfl (by decide)

/-- The previous run's monitor for the C8 scenario: its channel `"p"` ended
with final recorded value `0.3`. -/
def c8_prev_monitor : Monitor := ⟨[("p", ⟨[.fin (mkRat 3 10)]⟩)]⟩

/-- Three per-epoch snapshots for the C8 scenario: the current channel `"c"`
records `0.5`, then `0.4`, then `0.2`; the previous monitor sits on the
model attribute `"pm"` throughout. -/
def c8_models : List Model :=
  [{ monitor := ⟨[("c", ⟨[.fin (mkRat 5 10)]⟩)]⟩,
     attrs := [("pm", c8_prev_monitor)] },
   { monitor := ⟨[("c", ⟨[.fin (mkRat 5 10), .fin (mkRat 4 10)]⟩)]⟩,
     attrs := [("pm", c8_prev_monitor)] },
   { monitor := ⟨[("c", ⟨[.fin (mkRat 5 10), .fin (mkRat 4 10),
       .fin (mkRat 2 10)]⟩)]⟩,
     attrs := [("pm", c8_prev_monitor)] }]

/-- C8: `MatchChannel`.  First call with an unresolved target: the target is
read from the latest value of `prev_channel_name` in the monitor found at
model attribute `prev_monitor_name`, cached in the criterion's state, and
the call already returns `current > target`.  Any later call with a cached
target `t` ignores the previous-run data entirely (any model, any
attributes) and returns `current > t`, leaving the cache unchanged — the
target is never recomputed.  Concretely: previous final value `0.3`,
current values `0.5, 0.4, 0.2` across three calls give
`true, true, false`. -/
theorem match_channel_continue_learning
    (channel_name prev_channel_name prev_monitor_name : String)
    (model : Model) (prev_monitor : Monitor) (prev_channel chan : Channel)
    (t v : PyFloat)
    (h1 : List.lookup prev_monitor_name model.attrs = some prev_monitor)
    (h2 : List.lookup prev_channel_name prev_monitor.channels
        = some prev_channel)
    (h3 : prev_channel.val_record.getLast? = some t)
    (h4 : List.lookup channel_name model.monitor.channels = some chan)
    (h5 : chan.val_record.getLast? = some v) :
    continue_learning
        (.MatchChannel channel_name prev_channel_name prev_monitor_name none)
        model
      = some (PyFloat.gt v t,
          .MatchChannel channel_name prev_channel_name prev_monitor_name
            (some t))
    ∧ (∀ (model2 : Model) (chan2 : Channel) (v2 : PyFloat),
        List.lookup channel_name model2.monitor.channels = some chan2 →
        chan2.val_record.getLast? = some v2 →
        continue_learning
            (.MatchChannel channel_name prev_channel_name prev_monitor_name
              (some t)) model2
          = some (PyFloat.gt v2 t,
              .MatchChannel channel_name prev_channel_name prev_monitor_name
                (some t)))
    ∧ runCalls (.MatchChannel "c" "p" "pm" none) c8_models
        = some ([true, true, false],
            .MatchChannel "c" "p" "pm" (some (.fin (mkRat 3 10)))) := by
  refine ⟨?_, ?_, rfl⟩
  · simp [continue_learning, h1, h2, h3, h4, h5]
  · intro model2 chan2 v2 g1 g2
    simp [continue_learning, g1, g2]

/-- Witness for C8 at a concrete input: the first call of the C8 scenario
resolves and caches the target `0.3` and returns `true` (`0.5 > 0.3`). -/
theorem match_channel_witness :
    continue_learning (.MatchChannel "c" "p" "pm" none)
        { monitor := ⟨[("c", ⟨[.fin (mkRat 5 10)]⟩)]⟩,
          attrs := [("pm", c8_prev_monitor)] }
      = some (PyFloat.gt (.fin (mkRat 5 10)) (.fin (mkRat 3 10)),
          .MatchChannel "c" "p" "pm" (some (.fin (mkRat 3 10)))) :=
  (match_channel_continue_learning "c" "p" "pm"
    { monitor := ⟨[("c", ⟨[.fin (mkRat 5 10)]⟩)]⟩,
      attrs := [("pm", c8_prev_monitor)] }
    c8_prev_monitor ⟨[.fin (mkRat 3 10)]⟩ ⟨[.fin (mkRat 5 10)]⟩
    (.fin (mkRat 3 10)) (.fin (mkRat 5 10)) rfl rfl rfl rfl rfl).1

/-- C9: the combinators over an empty list of criteria: `all([])` is `True`
and `any([])` is `False`, on every model and every call (the state is
unchanged, so this holds on all subsequent calls as well). -/
theorem and_or_empty (model : Model) :
    continue_learning (.And []) model = some (true, .And [])
    ∧ continue_learning (.Or []) model = some (false, .Or []) := ⟨rfl, rfl⟩

/-- C10: `EpochCounter.continue_learning` never reads its model argument:
on any two models (with arbitrary monitors and attributes) and the same
internal state it returns the same boolean and the same successor state. -/
theorem epoch_counter_ignores_model (max_epochs epochs_done : ℤ)
    (m1 m2 : Model) :
    continue_learning (.EpochCounter max_epochs epochs_done) m1
      = continue_learning (.EpochCounter max_epochs epochs_done) m2 := rfl

end Pylearn2
